import Mathlib

/-!
Verification of the Smart-Diary todo-normalizer (extracted-todo deduplication
and merge logic).  The definitions below are a shallow embedding of the
TypeScript functions `normalizeTodoDueDate`, `normalizeTodoPriority`,
`buildTodoKey`, `buildTodoTitleKey`, `extractTitleKeyFromTodoKey`,
`normalizeTodoSuggestion`, `normalizeExtractedInfo`, the `todoCards`
eligibility filter, `handleDeleteTodo`, `handleAddTodo` and
`mergeDetectedTodos`.

JavaScript strings are modelled as Lean `String` (a structure over
`List Char`); `String.prototype.trim` is modelled by dropping leading and
trailing whitespace characters, `toLowerCase` by an ASCII letter map, and
`key.split("|")[0]` by taking characters before the first vertical bar.
JavaScript `Set` objects (which iterate in insertion order) are modelled as
duplicate-free lists built by order-preserving insertion.
-/

namespace SmartDiary

/-- JS `String.prototype.trim` on the character list: drop leading and
trailing whitespace. -/
def trimL (l : List Char) : List Char :=
  ((l.dropWhile Char.isWhitespace).reverse.dropWhile Char.isWhitespace).reverse

/-- JS `trim` on strings. -/
def jsTrim (s : String) : String := ⟨trimL s.data⟩

/-- JS `toLowerCase` restricted to ASCII letters (sufficient for the key
alphabet used by the app). -/
def lowerChar (c : Char) : Char :=
  match c with
  | 'A' => 'a' | 'B' => 'b' | 'C' => 'c' | 'D' => 'd' | 'E' => 'e'
  | 'F' => 'f' | 'G' => 'g' | 'H' => 'h' | 'I' => 'i' | 'J' => 'j'
  | 'K' => 'k' | 'L' => 'l' | 'M' => 'm' | 'N' => 'n' | 'O' => 'o'
  | 'P' => 'p' | 'Q' => 'q' | 'R' => 'r' | 'S' => 's' | 'T' => 't'
  | 'U' => 'u' | 'V' => 'v' | 'W' => 'w' | 'X' => 'x' | 'Y' => 'y'
  | 'Z' => 'z' | c => c

/-- JS `toLowerCase` on strings. -/
def jsToLower (s : String) : String := ⟨s.data.map lowerChar⟩

/-- JS `key.split("|")[0] ?? key`: the characters before the first `|`
(the whole string when it has no `|`). -/
def splitHead (s : String) : String := ⟨s.data.takeWhile (fun c => c ≠ '|')⟩

/-- Order-preserving insertion into a JS `Set` modelled as a list. -/
def setAdd (l : List String) (k : String) : List String :=
  if k ∈ l then l else l ++ [k]

/-- `new Set(l)` / `Array.from`: duplicate-free list keeping first
occurrences in order. -/
def jsSetFrom (l : List String) : List String := l.foldl setAdd []

/-- `TodoSuggestion` as handled by the UI code: every field may be absent at
runtime (the code defends with optional chaining). -/
structure TodoSuggestion where
  title : Option String
  dueDate : Option String
  priority : Option String
  notes : Option String
deriving DecidableEq, Repr

/-- A persisted `Task` (only the fields the key builders read). -/
structure Task where
  title : Option String
  deadline : Option String
  priority : Option String
  status : String
deriving DecidableEq, Repr

/-- Per-conversation `ExtractedInfo`. -/
structure ExtractedInfo where
  events : List String
  people : List String
  locations : List String
  todos : List TodoSuggestion
  dismissedTodos : List String
deriving DecidableEq, Repr

/-- A conversation (only the fields the merge reads/writes). -/
structure Conversation where
  id : String
  extractedInfo : ExtractedInfo
deriving DecidableEq, Repr

/-- `todo.title?.trim() ?? ""`. -/
def optTrim (s : Option String) : String := (s.map jsTrim).getD ""

/-- `normalizeTodoDueDate`: empty for missing/blank/sentinel "未知" input,
otherwise the trimmed string. -/
def normalizeTodoDueDate (value : Option String) : String :=
  match value with
  | none => ""
  | some v =>
      if v = "" then ""
      else
        let trimmed := jsTrim v
        if trimmed = "" ∨ trimmed = "未知" then "" else trimmed

/-- The four legal priority strings. -/
def validPriority (v : String) : Bool :=
  v = "low" || v = "medium" || v = "high" || v = "urgent"

/-- `normalizeTodoPriority`: pass through a valid priority, default
"medium". -/
def normalizeTodoPriority (value : Option String) : String :=
  match value with
  | some v => if validPriority v then v else "medium"
  | none => "medium"

/-- `buildTodoKey(title, dueDate, priority)`:
`` `${title.trim()}|${dueDate}|${priority}` ``. -/
def buildTodoKey (title dueDate priority : String) : String :=
  jsTrim title ++ "|" ++ dueDate ++ "|" ++ priority

/-- `buildTodoTitleKey(title)`: `title.trim().toLowerCase()`. -/
def buildTodoTitleKey (title : String) : String := jsToLower (jsTrim title)

/-- `extractTitleKeyFromTodoKey(key)`: title key of the segment before the
first `|`. -/
def extractTitleKeyFromTodoKey (key : String) : String :=
  buildTodoTitleKey (splitHead key)

/-- `buildTodoKeyFromTodo`. -/
def buildTodoKeyFromTodo (todo : TodoSuggestion) : String :=
  buildTodoKey (optTrim todo.title) (normalizeTodoDueDate todo.dueDate)
    (normalizeTodoPriority todo.priority)

/-- `buildTodoTitleKeyFromTodo`. -/
def buildTodoTitleKeyFromTodo (todo : TodoSuggestion) : String :=
  buildTodoTitleKey (todo.title.getD "")

/-- `buildTodoKeyFromTask`. -/
def buildTodoKeyFromTask (task : Task) : String :=
  buildTodoKey (optTrim task.title) (normalizeTodoDueDate (some (task.deadline.getD "")))
    (normalizeTodoPriority task.priority)

/-- `buildTodoTitleKeyFromTask`. -/
def buildTodoTitleKeyFromTask (task : Task) : String :=
  buildTodoTitleKey (task.title.getD "")

/-- `existingTaskKeys`: set of full keys over all tasks. -/
def existingTaskKeysOf (tasks : List Task) : List String :=
  jsSetFrom (tasks.map buildTodoKeyFromTask)

/-- `existingTaskTitleKeys`: set of title keys over all tasks. -/
def existingTaskTitleKeysOf (tasks : List Task) : List String :=
  jsSetFrom (tasks.map buildTodoTitleKeyFromTask)

/-- `normalizeTodoSuggestion`: `none` when the title is blank, otherwise the
canonicalized suggestion. -/
def normalizeTodoSuggestion (todo : TodoSuggestion) : Option TodoSuggestion :=
  let title := optTrim todo.title
  if title = "" then none
  else
    let dueDate := normalizeTodoDueDate todo.dueDate
    let priority := normalizeTodoPriority todo.priority
    let notes := optTrim todo.notes
    some { title := some title
           dueDate := if dueDate = "" then none else some dueDate
           priority := some priority
           notes := if notes = "" then none else some notes }

/-- `normalizeExtractedInfo`: default every missing field to empty. -/
def normalizeExtractedInfo (info : Option ExtractedInfo) : ExtractedInfo :=
  { events := (info.map (·.events)).getD []
    people := (info.map (·.people)).getD []
    locations := (info.map (·.locations)).getD []
    todos := (info.map (·.todos)).getD []
    dismissedTodos := (info.map (·.dismissedTodos)).getD [] }

/-- The accumulator threaded through the two `forEach` loops of
`mergeDetectedTodos`. -/
structure MergeState where
  existingKeys : List String
  existingTitleKeys : List String
  nextTodos : List TodoSuggestion
  added : Nat
deriving DecidableEq, Repr

/-- One iteration of the `forEach` body shared by both loops of
`mergeDetectedTodos` (`countAdded` distinguishes the `detected` loop, which
increments `added`). -/
def mergeStep (dismissed dismissedTitleKeys taskKeys taskTitleKeys : List String)
    (countAdded : Bool) (st : MergeState) (todo : TodoSuggestion) : MergeState :=
  match normalizeTodoSuggestion todo with
  | none => st
  | some normalized =>
    let key := buildTodoKeyFromTodo normalized
    let titleKey := buildTodoTitleKeyFromTodo normalized
    if jsTrim key = "" then st
    else if key ∈ dismissed ∨ titleKey ∈ dismissedTitleKeys ∨ key ∈ taskKeys ∨
        titleKey ∈ taskTitleKeys ∨ key ∈ st.existingKeys ∨
        titleKey ∈ st.existingTitleKeys then st
    else
      { existingKeys := st.existingKeys ++ [key]
        existingTitleKeys := st.existingTitleKeys ++ [titleKey]
        nextTodos := st.nextTodos ++ [normalized]
        added := st.added + (if countAdded then 1 else 0) }

/-- The deduplicating double loop of `mergeDetectedTodos`: prune the current
pending list, then append surviving incoming suggestions. -/
def mergeCore (dismissed taskKeys taskTitleKeys : List String)
    (current detectedTodos : List TodoSuggestion) : MergeState :=
  let dtk := jsSetFrom (dismissed.map extractTitleKeyFromTodoKey)
  let st1 := current.foldl (mergeStep dismissed dtk taskKeys taskTitleKeys false)
    { existingKeys := [], existingTitleKeys := [], nextTodos := [], added := 0 }
  detectedTodos.foldl (mergeStep dismissed dtk taskKeys taskTitleKeys true) st1

/-- The merged pending list (the spec's `mergeSuggestions`): the `nextTodos`
computed by `mergeDetectedTodos` for a given dismissal set and task key
sets. -/
def mergeSuggestions (existingPending incoming : List TodoSuggestion)
    (dismissedKeys taskKeys taskTitleKeys : List String) : List TodoSuggestion :=
  (mergeCore dismissedKeys taskKeys taskTitleKeys existingPending incoming).nextTodos

/-- `mergeDetectedTodos` at the conversation level: returns the
`ExtractedInfo` passed to `updateConversationExtractedInfo`, or `none` when
no update is performed. -/
def mergeDetectedTodos (detected : Option ExtractedInfo)
    (active : Option Conversation)
    (taskKeys taskTitleKeys : List String) : Option ExtractedInfo :=
  match detected with
  | none => none
  | some det =>
    if det.todos.isEmpty then none
    else
      match active with
      | none => none
      | some conv =>
        let currentInfo := normalizeExtractedInfo (some conv.extractedInfo)
        let dismissed := jsSetFrom (currentInfo.dismissedTodos ++ det.dismissedTodos)
        let st := mergeCore dismissed taskKeys taskTitleKeys currentInfo.todos det.todos
        if st.added = 0 ∧ st.nextTodos.length = currentInfo.todos.length then none
        else
          some { currentInfo with todos := st.nextTodos, dismissedTodos := dismissed }

/-- Applying an optional `updateConversationExtractedInfo` payload to a
conversation; `none` means the call was not made. -/
def applyUpdate (conv : Conversation) (update : Option ExtractedInfo) : Conversation :=
  match update with
  | none => conv
  | some info => { conv with extractedInfo := info }

/-- `array.filter((_, idx) => idx !== index)`. -/
def removeAt (l : List TodoSuggestion) (index : Nat) : List TodoSuggestion :=
  ((l.enum.filter (fun p => p.1 ≠ index)).map (·.2))

/-- `handleDeleteTodo` (dismiss): the `ExtractedInfo` written for the
conversation, or `none` when the handler returns early. -/
def handleDeleteTodo (extractedInfo : Option ExtractedInfo) (index : Nat) :
    Option ExtractedInfo :=
  let currentInfo := normalizeExtractedInfo extractedInfo
  match currentInfo.todos[index]? with
  | none => none
  | some currentTodo =>
    let nextTodos := removeAt currentInfo.todos index
    let todoKey := buildTodoKeyFromTodo currentTodo
    let titleKey := buildTodoTitleKeyFromTodo currentTodo
    let d0 := jsSetFrom currentInfo.dismissedTodos
    let d1 := if jsTrim todoKey = "" then d0 else setAdd d0 todoKey
    let d2 := if jsTrim titleKey = "" then d1 else setAdd d1 titleKey
    some { currentInfo with todos := nextTodos, dismissedTodos := d2 }

/-- The in-place edit draft a card may carry while being promoted. -/
structure TodoEditDraft where
  title : String
  priority : String
  dueDate : String
  notes : String
deriving DecidableEq, Repr

/-- `handleAddTodo` (promote): the `ExtractedInfo` written for the
conversation, or `none` when the handler returns early or `createTask`
failed (`created = false`). -/
def handleAddTodo (extractedInfo : Option ExtractedInfo) (index : Nat)
    (draft : Option TodoEditDraft) (created : Bool) : Option ExtractedInfo :=
  let currentInfo := normalizeExtractedInfo extractedInfo
  match currentInfo.todos[index]? with
  | none => none
  | some currentTodo =>
    let sourceTodo :=
      match draft with
      | some d =>
          { title := some d.title, priority := some d.priority
            dueDate := some d.dueDate, notes := some d.notes : TodoSuggestion }
      | none => currentTodo
    let title := optTrim sourceTodo.title
    if title = "" then none
    else if created then
      let nextTodos := removeAt currentInfo.todos index
      let dismissedKey := buildTodoKey title (normalizeTodoDueDate sourceTodo.dueDate)
        (normalizeTodoPriority sourceTodo.priority)
      let dismissedTitleKey := buildTodoTitleKey title
      let d0 := jsSetFrom currentInfo.dismissedTodos
      let d1 := if jsTrim dismissedKey = "" then d0 else setAdd d0 dismissedKey
      let d2 := if jsTrim dismissedTitleKey = "" then d1 else setAdd d1 dismissedTitleKey
      some { currentInfo with todos := nextTodos, dismissedTodos := d2 }
    else none

/-- The per-todo filter of `todoCards`: whether a suggestion of a
conversation with dismissal list `dismissedTodos` is displayed (eligible for
promotion). -/
def todoCardEligible (todo : TodoSuggestion) (dismissedTodos : List String)
    (taskKeys taskTitleKeys : List String) : Bool :=
  if optTrim todo.title = "" then false
  else
    let dismissed := jsSetFrom dismissedTodos
    let dismissedTitleKeys := jsSetFrom (dismissedTodos.map extractTitleKeyFromTodoKey)
    let key := buildTodoKeyFromTodo todo
    let titleKey := buildTodoTitleKeyFromTodo todo
    if key ∈ dismissed ∨ titleKey ∈ dismissedTitleKeys ∨ key ∈ taskKeys ∨
        titleKey ∈ taskTitleKeys then false
    else true

/-! ### Basic lemmas about the string model -/

theorem dropWhileConcatNeg {α : Type} (p : α → Bool) (l : List α) (c : α)
    (hc : p c = false) :
    List.dropWhile p (l ++ [c]) = List.dropWhile p l ++ [c] := by
  induction l with
  | nil => simp [List.dropWhile, hc]
  | cons a t ih =>
      by_cases h : p a
      · simpa [List.dropWhile_cons, h] using ih
      · simp [List.dropWhile_cons, h]

theorem dropWhileHeadFalse {α : Type} (p : α → Bool) (l : List α) (a : α)
    (t : List α) (h : List.dropWhile p l = a :: t) : p a = false := by
  induction l with
  | nil => simp at h
  | cons b u ih =>
      rw [List.dropWhile_cons] at h
      split at h
      · exact ih h
      · cases h
        exact Bool.of_not_eq_true ‹¬ _›

theorem takeWhileAppendCons {α : Type} (p : α → Bool) (xs ys : List α) (c : α)
    (hxs : ∀ a ∈ xs, p a = true) (hc : p c = false) :
    List.takeWhile p (xs ++ c :: ys) = xs := by
  induction xs with
  | nil => simp [List.takeWhile, hc]
  | cons a t ih =>
      have ha : p a = true := hxs a (by simp)
      simp only [List.cons_append, List.takeWhile_cons, ha, if_true]
      rw [ih (fun b hb => hxs b (by simp [hb]))]

theorem trimL_nil : trimL [] = [] := rfl

theorem trimL_idem (l : List Char) : trimL (trimL l) = trimL l := by
  cases h : List.dropWhile Char.isWhitespace l with
  | nil =>
      have htr : trimL l = [] := by
        unfold trimL
        rw [h]
        rfl
      rw [htr]
      rfl
  | cons c t =>
      have hc : Char.isWhitespace c = false := dropWhileHeadFalse _ _ _ _ h
      have htr : trimL l =
          c :: (List.dropWhile Char.isWhitespace t.reverse).reverse := by
        unfold trimL
        rw [h, List.reverse_cons, dropWhileConcatNeg _ _ _ hc,
          List.reverse_append, List.reverse_singleton, List.singleton_append]
      rw [htr]
      unfold trimL
      rw [List.dropWhile_cons]
      simp only [hc, Bool.false_eq_true, if_false]
      rw [List.reverse_cons, List.reverse_reverse,
        dropWhileConcatNeg _ _ _ hc, List.dropWhile_idempotent,
        List.reverse_append, List.reverse_singleton, List.singleton_append]

theorem trimL_ne_nil (l : List Char) (c : Char) (hc : c ∈ l)
    (hw : Char.isWhitespace c = false) : trimL l ≠ [] := by
  intro h
  unfold trimL at h
  have h2 : List.dropWhile Char.isWhitespace
      (List.dropWhile Char.isWhitespace l).reverse = [] := by
    simpa using h
  have h3 : ∀ x ∈ (List.dropWhile Char.isWhitespace l).reverse,
      Char.isWhitespace x := List.dropWhile_eq_nil_iff.mp h2
  have h4 : c ∈ List.takeWhile Char.isWhitespace l ∨
      c ∈ List.dropWhile Char.isWhitespace l := by
    have := List.takeWhile_append_dropWhile Char.isWhitespace l
    rw [← this] at hc
    exact List.mem_append.mp hc
  cases h4 with
  | inl h4 =>
      have := List.mem_takeWhile_imp h4
      rw [hw] at this
      exact Bool.false_ne_true this
  | inr h4 =>
      have := h3 c (by simpa using h4)
      rw [hw] at this
      exact Bool.false_ne_true this

theorem dropWhileMap {α : Type} (p : α → Bool) (f : α → α)
    (hf : ∀ c, p (f c) = p c) (l : List α) :
    List.dropWhile p (l.map f) = (List.dropWhile p l).map f := by
  induction l with
  | nil => rfl
  | cons a t ih =>
      by_cases h : p a
      · simp [List.dropWhile_cons, h, hf, ih]
      · simp [List.dropWhile_cons, h, hf]

theorem lowerChar_isWhitespace (c : Char) :
    Char.isWhitespace (lowerChar c) = Char.isWhitespace c := by
  unfold lowerChar
  split <;> rfl

theorem trimL_map_lowerChar (l : List Char) :
    trimL (l.map lowerChar) = (trimL l).map lowerChar := by
  unfold trimL
  rw [dropWhileMap _ _ lowerChar_isWhitespace, ← List.map_reverse,
    dropWhileMap _ _ lowerChar_isWhitespace, List.map_reverse]

theorem jsTrim_data (s : String) : (jsTrim s).data = trimL s.data := rfl

theorem jsTrim_idem (s : String) : jsTrim (jsTrim s) = jsTrim s :=
  String.ext (trimL_idem s.data)

theorem jsTrim_eq_empty_iff (s : String) : jsTrim s = "" ↔ trimL s.data = [] := by
  constructor
  · intro h
    exact congrArg String.data h
  · intro h
    exact String.ext h

theorem jsToLower_trimmed (s : String) (h : jsTrim s = s) :
    jsTrim (jsToLower s) = jsToLower s := by
  apply String.ext
  rw [jsTrim_data]
  show trimL (s.data.map lowerChar) = (jsToLower s).data
  rw [trimL_map_lowerChar]
  have hd : trimL s.data = s.data := by
    have := congrArg String.data h
    simpa [jsTrim_data] using this
  rw [hd]
  rfl

/-! ### Lemmas about the JS `Set` model -/

theorem mem_setAdd (l : List String) (k x : String) :
    x ∈ setAdd l k ↔ x ∈ l ∨ x = k := by
  unfold setAdd
  by_cases h : k ∈ l
  · simp only [h, if_true]
    constructor
    · exact Or.inl
    · rintro (hx | rfl)
      · exact hx
      · exact h
  · simp [h]

theorem mem_foldl_setAdd (l : List String) (acc : List String) (x : String) :
    x ∈ l.foldl setAdd acc ↔ x ∈ acc ∨ x ∈ l := by
  induction l generalizing acc with
  | nil => simp
  | cons a t ih =>
      rw [List.foldl_cons, ih, mem_setAdd]
      constructor
      · rintro ((hx | rfl) | hx)
        · exact Or.inl hx
        · exact Or.inr (by simp)
        · exact Or.inr (by simp [hx])
      · rintro (hx | hx)
        · exact Or.inl (Or.inl hx)
        · rcases List.mem_cons.mp hx with rfl | hx
          · exact Or.inl (Or.inr rfl)
          · exact Or.inr hx

theorem mem_jsSetFrom (l : List String) (x : String) :
    x ∈ jsSetFrom l ↔ x ∈ l := by
  unfold jsSetFrom
  rw [mem_foldl_setAdd]
  simp

/-! ### Normalization lemmas -/

theorem normalizeTodoDueDate_spec (v : Option String) :
    normalizeTodoDueDate v = "" ∨
      (jsTrim (normalizeTodoDueDate v) = normalizeTodoDueDate v ∧
        normalizeTodoDueDate v ≠ "" ∧ normalizeTodoDueDate v ≠ "未知") := by
  unfold normalizeTodoDueDate
  match v with
  | none => exact Or.inl rfl
  | some s =>
      by_cases h0 : s = ""
      · simp [h0]
      · simp only [h0, if_false]
        by_cases h1 : jsTrim s = "" ∨ jsTrim s = "未知"
        · simp [h1]
        · simp only [h1, if_false]
          push_neg at h1
          exact Or.inr ⟨jsTrim_idem s, h1.1, h1.2⟩

theorem normalizeTodoDueDate_fixed (d : String) (h1 : jsTrim d = d)
    (h2 : d ≠ "") (h3 : d ≠ "未知") : normalizeTodoDueDate (some d) = d := by
  unfold normalizeTodoDueDate
  simp [h2, h1, h3]

theorem validPriority_normalize (v : Option String) :
    validPriority (normalizeTodoPriority v) = true := by
  unfold normalizeTodoPriority
  match v with
  | none => rfl
  | some s =>
      by_cases h : validPriority s
      · simp [h]
      · simp [h]
        rfl

theorem normalizeTodoPriority_valid (p : String) (h : validPriority p = true) :
    normalizeTodoPriority (some p) = p := by
  unfold normalizeTodoPriority
  simp [h]

theorem optTrim_fixed (s : String) (hs : jsTrim s = s) :
    optTrim (some s) = s := by
  unfold optTrim
  simpa using hs

/-- Canonicalization is idempotent: a normalized suggestion normalizes to
itself. -/
theorem normalizeTodoSuggestion_idem (t n : TodoSuggestion)
    (h : normalizeTodoSuggestion t = some n) :
    normalizeTodoSuggestion n = some n := by
  unfold normalizeTodoSuggestion at h
  by_cases ht : optTrim t.title = ""
  · simp [ht] at h
  · simp only [ht, if_false, Option.some.injEq] at h
    subst h
    have htitle : jsTrim (optTrim t.title) = optTrim t.title := by
      unfold optTrim
      match t.title with
      | none => rfl
      | some s => simpa using jsTrim_idem s
    unfold normalizeTodoSuggestion
    have h1 : optTrim (some (optTrim t.title)) = optTrim t.title := by
      unfold optTrim
      simpa using htitle
    simp only [h1, ht, if_false]
    congr 1
    have hdue :
        normalizeTodoDueDate
          (if normalizeTodoDueDate t.dueDate = "" then none
            else some (normalizeTodoDueDate t.dueDate)) =
          normalizeTodoDueDate t.dueDate := by
      rcases normalizeTodoDueDate_spec t.dueDate with hd | ⟨hd1, hd2, hd3⟩
      · simp [hd]
        rfl
      · simp only [hd2, if_false]
        exact normalizeTodoDueDate_fixed _ hd1 hd2 hd3
    have hpri :
        normalizeTodoPriority (some (normalizeTodoPriority t.priority)) =
          normalizeTodoPriority t.priority :=
      normalizeTodoPriority_valid _ (validPriority_normalize t.priority)
    have hnotes :
        optTrim
          (if optTrim t.notes = "" then none else some (optTrim t.notes)) =
          optTrim t.notes := by
      by_cases hn : optTrim t.notes = ""
      · simp [hn]
        rfl
      · simp only [hn, if_false]
        unfold optTrim
        match t.notes with
        | none => rfl
        | some s => simpa using jsTrim_idem s
    rw [hdue, hpri, hnotes]

/-! ### The merge invariant -/

/-- The facts that hold of every suggestion the merge loop appends: it is a
fixed point of canonicalization, its key is non-blank, and neither its key
nor its title key collides with dismissals or tasks. -/
def GoodTodo (dismissed dtk taskKeys taskTitleKeys : List String)
    (t : TodoSuggestion) : Prop :=
  normalizeTodoSuggestion t = some t ∧
  jsTrim (buildTodoKeyFromTodo t) ≠ "" ∧
  buildTodoKeyFromTodo t ∉ dismissed ∧
  buildTodoTitleKeyFromTodo t ∉ dtk ∧
  buildTodoKeyFromTodo t ∉ taskKeys ∧
  buildTodoTitleKeyFromTodo t ∉ taskTitleKeys

/-- Loop invariant of `mergeDetectedTodos`: the working key sets track the
accumulated list, keys and title keys are duplicate-free, and every
accumulated entry is `GoodTodo`. -/
def MergeInv (dismissed dtk taskKeys taskTitleKeys : List String)
    (st : MergeState) : Prop :=
  st.existingKeys = st.nextTodos.map buildTodoKeyFromTodo ∧
  st.existingTitleKeys = st.nextTodos.map buildTodoTitleKeyFromTodo ∧
  (st.nextTodos.map buildTodoKeyFromTodo).Nodup ∧
  (st.nextTodos.map buildTodoTitleKeyFromTodo).Nodup ∧
  ∀ t ∈ st.nextTodos, GoodTodo dismissed dtk taskKeys taskTitleKeys t

theorem nodupConcat {α : Type} (l : List α) (a : α) (h : l.Nodup)
    (ha : a ∉ l) : (l ++ [a]).Nodup := by
  simp [List.nodup_append, h, ha]

theorem mergeStep_inv (dismissed dtk taskKeys taskTitleKeys : List String)
    (countAdded : Bool) (st : MergeState) (todo : TodoSuggestion)
    (hst : MergeInv dismissed dtk taskKeys taskTitleKeys st) :
    MergeInv dismissed dtk taskKeys taskTitleKeys
      (mergeStep dismissed dtk taskKeys taskTitleKeys countAdded st todo) := by
  unfold mergeStep
  cases hn : normalizeTodoSuggestion todo with
  | none => exact hst
  | some n =>
      simp only
      by_cases hkey : jsTrim (buildTodoKeyFromTodo n) = ""
      · simp only [hkey, if_true]
        exact hst
      · simp only [hkey, if_false]
        by_cases hcond : buildTodoKeyFromTodo n ∈ dismissed ∨
            buildTodoTitleKeyFromTodo n ∈ dtk ∨
            buildTodoKeyFromTodo n ∈ taskKeys ∨
            buildTodoTitleKeyFromTodo n ∈ taskTitleKeys ∨
            buildTodoKeyFromTodo n ∈ st.existingKeys ∨
            buildTodoTitleKeyFromTodo n ∈ st.existingTitleKeys
        · simp only [hcond, if_true]
          exact hst
        · simp only [hcond, if_false]
          push_neg at hcond
          obtain ⟨hc1, hc2, hc3, hc4, hc5, hc6⟩ := hcond
          obtain ⟨he1, he2, he3, he4, he5⟩ := hst
          refine ⟨?_, ?_, ?_, ?_, ?_⟩
          · simp [he1]
          · simp [he2]
          · rw [List.map_append]
            exact nodupConcat _ _ he3 (by rw [← he1]; simpa using hc5)
          · rw [List.map_append]
            exact nodupConcat _ _ he4 (by rw [← he2]; simpa using hc6)
          · intro t ht
            rcases List.mem_append.mp ht with ht | ht
            · exact he5 t ht
            · have : t = n := by simpa using ht
              subst this
              exact ⟨normalizeTodoSuggestion_idem todo t hn, hkey,
                hc1, hc2, hc3, hc4⟩

theorem foldl_mergeStep_inv (dismissed dtk taskKeys taskTitleKeys : List String)
    (countAdded : Bool) (l : List TodoSuggestion) (st : MergeState)
    (hst : MergeInv dismissed dtk taskKeys taskTitleKeys st) :
    MergeInv dismissed dtk taskKeys taskTitleKeys
      (l.foldl (mergeStep dismissed dtk taskKeys taskTitleKeys countAdded) st) := by
  induction l generalizing st with
  | nil => exact hst
  | cons a t ih =>
      exact ih _ (mergeStep_inv _ _ _ _ _ _ _ hst)

theorem mergeInv_init (dismissed dtk taskKeys taskTitleKeys : List String) :
    MergeInv dismissed dtk taskKeys taskTitleKeys
      { existingKeys := [], existingTitleKeys := [], nextTodos := [], added := 0 } := by
  refine ⟨rfl, rfl, List.nodup_nil, List.nodup_nil, ?_⟩
  intro t ht
  simp at ht

theorem mergeCore_inv (dismissed taskKeys taskTitleKeys : List String)
    (current detectedTodos : List TodoSuggestion) :
    MergeInv dismissed (jsSetFrom (dismissed.map extractTitleKeyFromTodoKey))
      taskKeys taskTitleKeys
      (mergeCore dismissed taskKeys taskTitleKeys current detectedTodos) := by
  unfold mergeCore
  exact foldl_mergeStep_inv _ _ _ _ _ _ _
    (foldl_mergeStep_inv _ _ _ _ _ _ _ (mergeInv_init _ _ _ _))

/-- Replaying the merge loop over a list of `GoodTodo` entries with
duplicate-free keys appends all of them unchanged. -/
theorem foldl_mergeStep_replay (dismissed dtk taskKeys taskTitleKeys : List String)
    (countAdded : Bool) (l : List TodoSuggestion) (st : MergeState)
    (hgood : ∀ t ∈ l, GoodTodo dismissed dtk taskKeys taskTitleKeys t)
    (hk : (st.existingKeys ++ l.map buildTodoKeyFromTodo).Nodup)
    (htk : (st.existingTitleKeys ++ l.map buildTodoTitleKeyFromTodo).Nodup) :
    l.foldl (mergeStep dismissed dtk taskKeys taskTitleKeys countAdded) st =
      { existingKeys := st.existingKeys ++ l.map buildTodoKeyFromTodo
        existingTitleKeys := st.existingTitleKeys ++ l.map buildTodoTitleKeyFromTodo
        nextTodos := st.nextTodos ++ l
        added := st.added + (if countAdded then l.length else 0) } := by
  induction l generalizing st with
  | nil =>
      simp only [List.foldl_nil, List.map_nil, List.append_nil, List.length_nil]
      cases countAdded <;> simp
  | cons a t ih =>
      obtain ⟨ha1, ha2, ha3, ha4, ha5, ha6⟩ := hgood a (by simp)
      have hkey_not : buildTodoKeyFromTodo a ∉ st.existingKeys := by
        intro hmem
        have hd := List.disjoint_of_nodup_append hk
        exact hd hmem (by simp)
      have htkey_not : buildTodoTitleKeyFromTodo a ∉ st.existingTitleKeys := by
        intro hmem
        have hd := List.disjoint_of_nodup_append htk
        exact hd hmem (by simp)
      have hstep : mergeStep dismissed dtk taskKeys taskTitleKeys countAdded st a =
          { existingKeys := st.existingKeys ++ [buildTodoKeyFromTodo a]
            existingTitleKeys := st.existingTitleKeys ++ [buildTodoTitleKeyFromTodo a]
            nextTodos := st.nextTodos ++ [a]
            added := st.added + (if countAdded then 1 else 0) } := by
        unfold mergeStep
        rw [ha1]
        simp only [ha2, if_false]
        have hcond : ¬ (buildTodoKeyFromTodo a ∈ dismissed ∨
            buildTodoTitleKeyFromTodo a ∈ dtk ∨
            buildTodoKeyFromTodo a ∈ taskKeys ∨
            buildTodoTitleKeyFromTodo a ∈ taskTitleKeys ∨
            buildTodoKeyFromTodo a ∈ st.existingKeys ∨
            buildTodoTitleKeyFromTodo a ∈ st.existingTitleKeys) := by
          push_neg
          exact ⟨ha3, ha4, ha5, ha6, hkey_not, htkey_not⟩
        simp only [hcond, if_false]
      rw [List.foldl_cons, hstep]
      rw [ih]
      · simp only [List.map_cons]
        simp only [MergeState.mk.injEq]
        refine ⟨?_, ?_, ?_, ?_⟩
        · rw [List.append_assoc, List.singleton_append]
        · rw [List.append_assoc, List.singleton_append]
        · rw [List.append_assoc, List.singleton_append]
        · cases countAdded with
          | false => simp
          | true =>
              simp only [List.length_cons, if_true]
              omega
      · intro x hx
        exact hgood x (by simp [hx])
      · simp only [List.append_assoc, List.singleton_append]
        simpa using hk
      · simp only [List.append_assoc, List.singleton_append]
        simpa using htk

/-! ### Key shape lemmas -/

theorem optTrim_trim_fixed (o : Option String) : jsTrim (optTrim o) = optTrim o := by
  cases o with
  | none => rfl
  | some s => exact jsTrim_idem s

theorem trim_getD_eq (o : Option String) :
    jsTrim (o.getD "") = jsTrim (optTrim o) := by
  cases o with
  | none => rfl
  | some s => exact (jsTrim_idem s).symm

/-- A full key always contains the delimiter, hence never trims to the
empty string. -/
theorem buildTodoKey_trim_ne_empty (title dueDate priority : String) :
    jsTrim (buildTodoKey title dueDate priority) ≠ "" := by
  intro h
  have hl : trimL (buildTodoKey title dueDate priority).data = [] :=
    (jsTrim_eq_empty_iff _).mp h
  have hmem : '|' ∈ (buildTodoKey title dueDate priority).data := by
    unfold buildTodoKey
    simp only [String.data_append]
    have hbar : '|' ∈ ("|" : String).data := by decide
    simp [hbar]
  exact trimL_ne_nil _ '|' hmem (by decide) hl

theorem jsToLower_ne_empty (s : String) (h : s ≠ "") : jsToLower s ≠ "" := by
  intro he
  apply h
  apply String.ext
  have := congrArg String.data he
  have hd : s.data.map lowerChar = [] := this
  have : s.data = [] := List.map_eq_nil_iff.mp hd
  exact this

/-- The title key of a non-blank title is non-empty after trimming. -/
theorem buildTodoTitleKey_trim_ne_empty (title : String)
    (h : jsTrim title ≠ "") : jsTrim (buildTodoTitleKey title) ≠ "" := by
  unfold buildTodoTitleKey
  rw [jsToLower_trimmed (jsTrim title) (jsTrim_idem title)]
  exact jsToLower_ne_empty _ h

/-- With no delimiter in the trimmed title, the title key extracted from a
full key is exactly the title key of the title. -/
theorem extract_buildTodoKey (title dueDate priority : String)
    (hbar : '|' ∉ (jsTrim title).data) :
    extractTitleKeyFromTodoKey (buildTodoKey title dueDate priority) =
      buildTodoTitleKey (jsTrim title) := by
  unfold extractTitleKeyFromTodoKey buildTodoKey splitHead
  have hdata : (jsTrim title ++ "|" ++ dueDate ++ "|" ++ priority).data =
      (jsTrim title).data ++ '|' :: (dueDate.data ++ '|' :: priority.data) := by
    simp only [String.data_append]
    simp [List.append_assoc]
  rw [hdata]
  have htake : ((jsTrim title).data ++
      '|' :: (dueDate.data ++ '|' :: priority.data)).takeWhile
        (fun c => c ≠ '|') = (jsTrim title).data := by
    apply takeWhileAppendCons
    · intro a ha
      simp only [ne_eq, decide_eq_true_eq]
      intro heq
      exact hbar (heq ▸ ha)
    · simp
  rw [htake]

/-- `removeAt` is `List.eraseIdx` (filtering out one position). -/
theorem filterEnumFrom (l : List TodoSuggestion) (n i : Nat) :
    ((List.enumFrom n l).filter (fun p => p.1 ≠ i)).map (·.2) =
      if i < n then l else l.eraseIdx (i - n) := by
  induction l generalizing n with
  | nil => simp
  | cons a t ih =>
      rw [List.enumFrom_cons, List.filter_cons]
      simp only [ne_eq] at ih ⊢
      by_cases hni : n = i
      · subst hni
        simp only [not_true_eq_false, decide_False, Bool.false_eq_true, if_false]
        rw [ih]
        have h1 : n < n + 1 := Nat.lt_succ_self n
        rw [if_pos h1, if_neg (Nat.lt_irrefl n), Nat.sub_self]
        rfl
      · have hd : (decide ¬ (n = i)) = true := by simp [hni]
        simp only [hd, if_true, List.map_cons]
        rw [ih]
        by_cases hlt : i < n
        · rw [if_pos hlt, if_pos (Nat.lt_succ_of_lt hlt)]
        · rw [if_neg hlt]
          have hlt1 : ¬ (i < n + 1) := by omega
          rw [if_neg hlt1]
          have hsub : i - n = (i - (n + 1)) + 1 := by omega
          rw [hsub]
          rfl

theorem removeAt_eq_eraseIdx (l : List TodoSuggestion) (i : Nat) :
    removeAt l i = l.eraseIdx i := by
  unfold removeAt
  have h := filterEnumFrom l 0 i
  have he : l.enum = List.enumFrom 0 l := rfl
  rw [he, h]
  simp

/-! ### Claim theorems -/

/-- C1: for every pending list, incoming list, dismissal set and
existing-task key sets, the list produced by the merge contains no two
entries with equal full keys, no two entries with equal title keys, no entry
whose full key is dismissed or whose title key is derived from a dismissed
key, and no entry whose full key or title key matches an existing task. -/
theorem mergeSuggestions_deduplicated
    (pending incoming : List TodoSuggestion)
    (dismissedKeys taskKeys taskTitleKeys : List String) :
    ((mergeSuggestions pending incoming dismissedKeys taskKeys taskTitleKeys).map
        buildTodoKeyFromTodo).Nodup ∧
    ((mergeSuggestions pending incoming dismissedKeys taskKeys taskTitleKeys).map
        buildTodoTitleKeyFromTodo).Nodup ∧
    ∀ t ∈ mergeSuggestions pending incoming dismissedKeys taskKeys taskTitleKeys,
      buildTodoKeyFromTodo t ∉ dismissedKeys ∧
      (∀ k ∈ dismissedKeys,
        buildTodoTitleKeyFromTodo t ≠ extractTitleKeyFromTodoKey k) ∧
      buildTodoKeyFromTodo t ∉ taskKeys ∧
      buildTodoTitleKeyFromTodo t ∉ taskTitleKeys := by
  obtain ⟨h1, h2, h3, h4, h5⟩ :=
    mergeCore_inv dismissedKeys taskKeys taskTitleKeys pending incoming
  refine ⟨h3, h4, ?_⟩
  intro t ht
  obtain ⟨g1, g2, g3, g4, g5, g6⟩ := h5 t ht
  refine ⟨g3, ?_, g5, g6⟩
  intro k hk he
  exact g4 (by
    rw [he]
    exact (mem_jsSetFrom _ _).mpr (List.mem_map.mpr ⟨k, hk, rfl⟩))

/-- C1 witness: a concrete instance of the no-dismissed-key-collision part
of `mergeSuggestions_deduplicated`. -/
theorem mergeSuggestions_deduplicated_witness :
    buildTodoKeyFromTodo
        { title := some "买牛奶", dueDate := none, priority := some "medium",
          notes := none : TodoSuggestion } ∉ (["x"] : List String) :=
  ((mergeSuggestions_deduplicated
      [{ title := some "买牛奶", dueDate := none, priority := some "medium",
         notes := none }] [] ["x"] [] []).2.2
    { title := some "买牛奶", dueDate := none, priority := some "medium",
      notes := none } (by decide)).1

/-- C2: the merge is idempotent: re-running `mergeSuggestions` with its own
output as the pending list and an empty incoming list (same dismissal set
and task key sets) returns the same list unchanged. -/
theorem mergeSuggestions_idempotent
    (A B : List TodoSuggestion)
    (dismissedKeys taskKeys taskTitleKeys : List String) :
    mergeSuggestions (mergeSuggestions A B dismissedKeys taskKeys taskTitleKeys)
        [] dismissedKeys taskKeys taskTitleKeys =
      mergeSuggestions A B dismissedKeys taskKeys taskTitleKeys := by
  obtain ⟨h1, h2, h3, h4, h5⟩ :=
    mergeCore_inv dismissedKeys taskKeys taskTitleKeys A B
  have hrep := foldl_mergeStep_replay dismissedKeys
    (jsSetFrom (dismissedKeys.map extractTitleKeyFromTodoKey)) taskKeys
    taskTitleKeys false
    (mergeCore dismissedKeys taskKeys taskTitleKeys A B).nextTodos
    { existingKeys := [], existingTitleKeys := [], nextTodos := [], added := 0 }
    h5 (by simpa using h3) (by simpa using h4)
  show (mergeCore dismissedKeys taskKeys taskTitleKeys
      (mergeCore dismissedKeys taskKeys taskTitleKeys A B).nextTodos []).nextTodos =
    (mergeCore dismissedKeys taskKeys taskTitleKeys A B).nextTodos
  unfold mergeCore
  rw [List.foldl_nil]
  unfold mergeCore at hrep
  rw [hrep]
  simp

/-- C3: the end-to-end scenario: pending `[买牛奶(未知,medium),
回电话(2024-05-02,high)]` merged with detected `[买牛奶(未知,medium),
订机票(未知,urgent)]` (no dismissals, no tasks) updates the conversation to
exactly `[买牛奶(medium), 回电话(2024-05-02,high), 订机票(urgent)]`: the
duplicate appears once, pending entries precede incoming ones, and relative
order is preserved. -/
theorem mergeDetectedTodos_example :
    mergeDetectedTodos
      (some { events := [], people := [], locations := [],
              todos := [{ title := some "买牛奶", dueDate := some "未知",
                          priority := some "medium", notes := none },
                        { title := some "订机票", dueDate := some "未知",
                          priority := some "urgent", notes := none }],
              dismissedTodos := [] })
      (some { id := "c1",
              extractedInfo :=
                { events := [], people := [], locations := [],
                  todos := [{ title := some "买牛奶", dueDate := some "未知",
                              priority := some "medium", notes := none },
                            { title := some "回电话", dueDate := some "2024-05-02",
                              priority := some "high", notes := none }],
                  dismissedTodos := [] } })
      [] [] =
    some { events := [], people := [], locations := [],
           todos := [{ title := some "买牛奶", dueDate := none,
                       priority := some "medium", notes := none },
                     { title := some "回电话", dueDate := some "2024-05-02",
                       priority := some "high", notes := none },
                     { title := some "订机票", dueDate := none,
                       priority := some "urgent", notes := none }],
           dismissedTodos := [] } := by
  rfl

/-- C9: `normalizeTodoDueDate` is total on optional strings: it returns `""`
for a missing, blank or sentinel ("未知") input and otherwise the trimmed
input unchanged (no format validation); in particular on "未知", "" and
" 2024-05-01 ". -/
theorem normalizeTodoDueDate_contract :
    normalizeTodoDueDate none = "" ∧
    (∀ s : String,
      normalizeTodoDueDate (some s) =
        if jsTrim s = "" ∨ jsTrim s = "未知" then "" else jsTrim s) ∧
    normalizeTodoDueDate (some "未知") = "" ∧
    normalizeTodoDueDate (some "") = "" ∧
    normalizeTodoDueDate (some " 2024-05-01 ") = "2024-05-01" := by
  refine ⟨rfl, ?_, by decide, rfl, by decide⟩
  intro s
  unfold normalizeTodoDueDate
  by_cases h : s = ""
  · subst h
    simp [show jsTrim "" = "" from rfl]
  · simp only [h, if_false]

theorem todoCardEligible_iff_aux (todo : TodoSuggestion)
    (ds tk ttk : List String) :
    todoCardEligible todo ds tk ttk = true ↔
      (optTrim todo.title ≠ "" ∧
       buildTodoKeyFromTodo todo ∉ ds ∧
       (∀ k ∈ ds, buildTodoTitleKeyFromTodo todo ≠ extractTitleKeyFromTodoKey k) ∧
       buildTodoKeyFromTodo todo ∉ tk ∧
       buildTodoTitleKeyFromTodo todo ∉ ttk) := by
  unfold todoCardEligible
  by_cases h : optTrim todo.title = ""
  · simp [h]
  · simp only [h, if_false, ne_eq, not_false_iff, true_and]
    by_cases hC : buildTodoKeyFromTodo todo ∈ jsSetFrom ds ∨
        buildTodoTitleKeyFromTodo todo ∈
          jsSetFrom (ds.map extractTitleKeyFromTodoKey) ∨
        buildTodoKeyFromTodo todo ∈ tk ∨
        buildTodoTitleKeyFromTodo todo ∈ ttk
    · simp only [hC, if_true]
      constructor
      · intro hfalse
        exact absurd hfalse (by simp)
      · rintro ⟨r2, r3, r4, r5⟩
        exfalso
        rcases hC with hc | hc | hc | hc
        · exact r2 ((mem_jsSetFrom _ _).mp hc)
        · rcases List.mem_map.mp ((mem_jsSetFrom _ _).mp hc) with ⟨k, hk, hkey⟩
          exact r3 k hk hkey.symm
        · exact r4 hc
        · exact r5 hc
    · simp only [hC, if_false, true_iff]
      push_neg at hC
      obtain ⟨c1, c2, c3, c4⟩ := hC
      refine ⟨fun hm => c1 ((mem_jsSetFrom _ _).mpr hm), ?_, c3, c4⟩
      intro k hk he
      exact c2 ((mem_jsSetFrom _ _).mpr
        (List.mem_map.mpr ⟨k, hk, he.symm⟩))

/-- C5: a suggestion is displayed/promotable iff its trimmed title is
non-empty, its full key is not dismissed, its title key is not derived from
any dismissed key, and neither its full key nor its title key matches an
existing task; in particular a task with the same title key suppresses the
suggestion regardless of due date, priority, or dismissals. -/
theorem todoCardEligible_contract (todo : TodoSuggestion)
    (dismissedTodos : List String) (tasks : List Task) :
    (∀ taskKeys taskTitleKeys : List String,
      todoCardEligible todo dismissedTodos taskKeys taskTitleKeys = true ↔
        (optTrim todo.title ≠ "" ∧
         buildTodoKeyFromTodo todo ∉ dismissedTodos ∧
         (∀ k ∈ dismissedTodos,
           buildTodoTitleKeyFromTodo todo ≠ extractTitleKeyFromTodoKey k) ∧
         buildTodoKeyFromTodo todo ∉ taskKeys ∧
         buildTodoTitleKeyFromTodo todo ∉ taskTitleKeys)) ∧
    (∀ task ∈ tasks,
      buildTodoTitleKeyFromTask task = buildTodoTitleKeyFromTodo todo →
      todoCardEligible todo dismissedTodos (existingTaskKeysOf tasks)
        (existingTaskTitleKeysOf tasks) = false) := by
  constructor
  · intro taskKeys taskTitleKeys
    exact todoCardEligible_iff_aux todo dismissedTodos taskKeys taskTitleKeys
  · intro task htask heq
    cases he : todoCardEligible todo dismissedTodos (existingTaskKeysOf tasks)
        (existingTaskTitleKeysOf tasks) with
    | false => rfl
    | true =>
        exfalso
        obtain ⟨r1, r2, r3, r4, r5⟩ :=
          (todoCardEligible_iff_aux todo dismissedTodos _ _).mp he
        apply r5
        unfold existingTaskTitleKeysOf
        exact (mem_jsSetFrom _ _).mpr
          (List.mem_map.mpr ⟨task, htask, heq⟩)

/-- C5 witness: a task titled 买牛奶 with a different due date and priority
suppresses a fresh 买牛奶 suggestion with no dismissal involved. -/
theorem todoCardEligible_contract_witness :
    todoCardEligible
      { title := some "买牛奶", dueDate := some "未知", priority := some "medium",
        notes := none } []
      (existingTaskKeysOf
        [{ title := some "买牛奶", deadline := some "2024-07-01",
           priority := some "high", status := "not_started" }])
      (existingTaskTitleKeysOf
        [{ title := some "买牛奶", deadline := some "2024-07-01",
           priority := some "high", status := "not_started" }]) = false :=
  (todoCardEligible_contract
    { title := some "买牛奶", dueDate := some "未知", priority := some "medium",
      notes := none } []
    [{ title := some "买牛奶", deadline := some "2024-07-01",
       priority := some "high", status := "not_started" }]).2
    { title := some "买牛奶", deadline := some "2024-07-01",
      priority := some "high", status := "not_started" } (by decide) (by decide)

/-- C8 counterexample: dismissing a suggestion whose title is blank after
trimming does change the dismissal set — the full key `"||medium"` (blank
title, empty due date, defaulted priority) is non-empty after trimming and
is recorded, so a blank-title suggestion does not "contribute nothing". -/
theorem handleDeleteTodo_blank_title_contributes :
    optTrim (some "  ") = "" ∧
    handleDeleteTodo
      (some { events := [], people := [], locations := [],
              todos := [{ title := some "  ", dueDate := none, priority := none,
                          notes := none }],
              dismissedTodos := [] }) 0 =
      some { events := [], people := [], locations := [], todos := [],
             dismissedTodos := ["||medium"] } := by
  exact ⟨rfl, rfl⟩

/-- C8 amended: the dismiss operation adds the full key and the title key,
each only when non-empty after trimming; the full key always contains the
delimiter and hence is never blank, so even a blank-title suggestion
contributes its full key (only its blank title key is omitted). -/
theorem handleDeleteTodo_dismissal_additions
    (info : Option ExtractedInfo) (index : Nat) (todo : TodoSuggestion)
    (h : (normalizeExtractedInfo info).todos[index]? = some todo) :
    jsTrim (buildTodoKeyFromTodo todo) ≠ "" ∧
    ∃ u, handleDeleteTodo info index = some u ∧
      u.todos = (normalizeExtractedInfo info).todos.eraseIdx index ∧
      (∀ s, s ∈ u.dismissedTodos ↔
        s ∈ (normalizeExtractedInfo info).dismissedTodos ∨
        s = buildTodoKeyFromTodo todo ∨
        (jsTrim (buildTodoTitleKeyFromTodo todo) ≠ "" ∧
         s = buildTodoTitleKeyFromTodo todo)) := by
  have hkey : jsTrim (buildTodoKeyFromTodo todo) ≠ "" := by
    unfold buildTodoKeyFromTodo
    exact buildTodoKey_trim_ne_empty _ _ _
  refine ⟨hkey, ?_⟩
  simp only [handleDeleteTodo, h]
  refine ⟨_, rfl, ?_, ?_⟩
  · exact removeAt_eq_eraseIdx _ _
  · intro s
    by_cases ht : jsTrim (buildTodoTitleKeyFromTodo todo) = ""
    · rw [if_pos ht, if_neg hkey, mem_setAdd, mem_jsSetFrom]
      constructor
      · rintro (hs | hs)
        · exact Or.inl hs
        · exact Or.inr (Or.inl hs)
      · rintro (hs | hs | ⟨hne, -⟩)
        · exact Or.inl hs
        · exact Or.inr hs
        · exact absurd ht hne
    · rw [if_neg ht, if_neg hkey, mem_setAdd, mem_setAdd, mem_jsSetFrom]
      constructor
      · rintro ((hs | hs) | hs)
        · exact Or.inl hs
        · exact Or.inr (Or.inl hs)
        · exact Or.inr (Or.inr ⟨ht, hs⟩)
      · rintro (hs | hs | ⟨-, hs⟩)
        · exact Or.inl (Or.inl hs)
        · exact Or.inl (Or.inr hs)
        · exact Or.inr hs

/-- C8 witness: the amended statement at the blank-title suggestion. -/
theorem handleDeleteTodo_dismissal_additions_witness :
    jsTrim (buildTodoKeyFromTodo
      { title := some "  ", dueDate := none, priority := none,
        notes := none }) ≠ "" ∧
    ∃ u, handleDeleteTodo
        (some { events := [], people := [], locations := [],
                todos := [{ title := some "  ", dueDate := none,
                            priority := none, notes := none }],
                dismissedTodos := [] }) 0 = some u ∧
      u.todos =
        (normalizeExtractedInfo
          (some { events := [], people := [], locations := [],
                  todos := [{ title := some "  ", dueDate := none,
                              priority := none, notes := none }],
                  dismissedTodos := [] })).todos.eraseIdx 0 ∧
      (∀ s, s ∈ u.dismissedTodos ↔
        s ∈ (normalizeExtractedInfo
          (some { events := [], people := [], locations := [],
                  todos := [{ title := some "  ", dueDate := none,
                              priority := none, notes := none }],
                  dismissedTodos := [] })).dismissedTodos ∨
        s = buildTodoKeyFromTodo
          { title := some "  ", dueDate := none, priority := none,
            notes := none } ∨
        (jsTrim (buildTodoTitleKeyFromTodo
          { title := some "  ", dueDate := none, priority := none,
            notes := none }) ≠ "" ∧
         s = buildTodoTitleKeyFromTodo
          { title := some "  ", dueDate := none, priority := none,
            notes := none })) :=
  handleDeleteTodo_dismissal_additions
    (some { events := [], people := [], locations := [],
            todos := [{ title := some "  ", dueDate := none, priority := none,
                        notes := none }],
            dismissedTodos := [] }) 0
    { title := some "  ", dueDate := none, priority := none, notes := none }
    (by decide)

/-- C4 counterexample: for a suggestion whose title contains the key
delimiter (title "a|b", dueDate 未知, medium), dismissing it records keys
"a|b||medium" and "a|b", whose extracted title keys are both "a" — so a
later merge does NOT exclude the same-title variant with dueDate
2024-06-01: it is returned in the merged list. -/
theorem dismissal_titleKey_gap :
    handleDeleteTodo
      (some { events := [], people := [], locations := [],
              todos := [{ title := some "a|b", dueDate := some "未知",
                          priority := some "medium", notes := none }],
              dismissedTodos := [] }) 0 =
      some { events := [], people := [], locations := [], todos := [],
             dismissedTodos := ["a|b||medium", "a|b"] } ∧
    mergeSuggestions []
      [{ title := some "a|b", dueDate := some "2024-06-01",
         priority := some "medium", notes := none }]
      ["a|b||medium", "a|b"] [] [] =
      [{ title := some "a|b", dueDate := some "2024-06-01",
         priority := some "medium", notes := none }] := by
  exact ⟨rfl, rfl⟩

/-- C4 amended: once a suggestion's full key is in the dismissal set, no
later merge output contains an entry with that full key (identical copies
are always excluded); and provided the suggestion's trimmed title does not
contain the delimiter `|`, no later merge output contains an entry with the
same title key (variants with a different due date are excluded too). -/
theorem dismissed_suggestion_never_resurfaces
    (S : TodoSuggestion) (dismissedKeys taskKeys taskTitleKeys : List String)
    (pending incoming : List TodoSuggestion)
    (hkey : buildTodoKeyFromTodo S ∈ dismissedKeys) :
    (∀ t ∈ mergeSuggestions pending incoming dismissedKeys taskKeys taskTitleKeys,
      buildTodoKeyFromTodo t ≠ buildTodoKeyFromTodo S) ∧
    ('|' ∉ (jsTrim (optTrim S.title)).data →
      ∀ t ∈ mergeSuggestions pending incoming dismissedKeys taskKeys taskTitleKeys,
        buildTodoTitleKeyFromTodo t ≠ buildTodoTitleKeyFromTodo S) := by
  obtain ⟨h1, h2, h3, h4, h5⟩ :=
    mergeCore_inv dismissedKeys taskKeys taskTitleKeys pending incoming
  constructor
  · intro t ht he
    obtain ⟨g1, g2, g3, g4, g5, g6⟩ := h5 t ht
    exact g3 (he ▸ hkey)
  · intro hbar t ht he
    obtain ⟨g1, g2, g3, g4, g5, g6⟩ := h5 t ht
    apply g4
    have hex : extractTitleKeyFromTodoKey (buildTodoKeyFromTodo S) =
        buildTodoTitleKeyFromTodo S := by
      unfold buildTodoKeyFromTodo
      rw [extract_buildTodoKey _ _ _ hbar]
      unfold buildTodoTitleKeyFromTodo buildTodoTitleKey
      rw [jsTrim_idem, ← trim_getD_eq]
    rw [he]
    rw [← hex]
    exact (mem_jsSetFrom _ _).mpr
      (List.mem_map.mpr ⟨buildTodoKeyFromTodo S, hkey, rfl⟩)

/-- C4 witness: with 买牛奶(未知, medium) dismissed, the merge of an
incoming list keeps only the unrelated suggestion, whose title key differs
from the dismissed one. -/
theorem dismissed_suggestion_never_resurfaces_witness :
    buildTodoTitleKeyFromTodo
      { title := some "订机票", dueDate := none, priority := some "urgent",
        notes := none } ≠
    buildTodoTitleKeyFromTodo
      { title := some "买牛奶", dueDate := some "未知",
        priority := some "medium", notes := none } :=
  (dismissed_suggestion_never_resurfaces
    { title := some "买牛奶", dueDate := some "未知", priority := some "medium",
      notes := none }
    ["买牛奶||medium"] [] [] []
    [{ title := some "订机票", dueDate := none, priority := some "urgent",
       notes := none }]
    (by decide)).2 (by decide)
    { title := some "订机票", dueDate := none, priority := some "urgent",
      notes := none } (by decide)

/-- C6: promotion is atomic with respect to normalizer-owned state: when
task creation fails (`created = false`) the handler writes nothing, so the
conversation's pending list and dismissal set are unchanged and the
suggestion stays pending; when creation succeeds, the suggestion is removed
from the pending list and its full key and title key are added to the
dismissal set. -/
theorem handleAddTodo_atomic
    (info : Option ExtractedInfo) (index : Nat) (draft : Option TodoEditDraft)
    (conv : Conversation) (todo : TodoSuggestion) :
    (handleAddTodo info index draft false = none ∧
     applyUpdate conv (handleAddTodo info index draft false) = conv) ∧
    ((normalizeExtractedInfo info).todos[index]? = some todo →
      optTrim todo.title ≠ "" →
      ∃ u, handleAddTodo info index none true = some u ∧
        u.todos = (normalizeExtractedInfo info).todos.eraseIdx index ∧
        (∀ s, s ∈ u.dismissedTodos ↔
          s ∈ (normalizeExtractedInfo info).dismissedTodos ∨
          s = buildTodoKey (optTrim todo.title)
                (normalizeTodoDueDate todo.dueDate)
                (normalizeTodoPriority todo.priority) ∨
          s = buildTodoTitleKey (optTrim todo.title))) := by
  have hnone : handleAddTodo info index draft false = none := by
    cases hm : (normalizeExtractedInfo info).todos[index]? with
    | none => simp only [handleAddTodo, hm]
    | some t =>
        simp only [handleAddTodo, hm]
        split
        · rfl
        · split
          · next hft => exact absurd hft (by decide)
          · rfl
  refine ⟨⟨hnone, by rw [hnone]; rfl⟩, ?_⟩
  intro hm htitle
  have hkey : jsTrim (buildTodoKey (optTrim todo.title)
      (normalizeTodoDueDate todo.dueDate)
      (normalizeTodoPriority todo.priority)) ≠ "" :=
    buildTodoKey_trim_ne_empty _ _ _
  have htrim : jsTrim (optTrim todo.title) = optTrim todo.title :=
    optTrim_trim_fixed todo.title
  have htkey : jsTrim (buildTodoTitleKey (optTrim todo.title)) ≠ "" :=
    buildTodoTitleKey_trim_ne_empty _ (by rw [htrim]; exact htitle)
  simp only [handleAddTodo, hm]
  rw [if_neg htitle, if_pos trivial, if_neg hkey, if_neg htkey]
  refine ⟨_, rfl, ?_, ?_⟩
  · exact removeAt_eq_eraseIdx _ _
  · intro s
    rw [mem_setAdd, mem_setAdd, mem_jsSetFrom]
    constructor
    · rintro ((hs | hs) | hs)
      · exact Or.inl hs
      · exact Or.inr (Or.inl hs)
      · exact Or.inr (Or.inr hs)
    · rintro (hs | hs | hs)
      · exact Or.inl (Or.inl hs)
      · exact Or.inl (Or.inr hs)
      · exact Or.inr hs

/-- C6 witness: the success clause at a concrete conversation. -/
theorem handleAddTodo_atomic_witness :
    ∃ u, handleAddTodo
        (some { events := [], people := [], locations := [],
                todos := [{ title := some "买牛奶", dueDate := some "未知",
                            priority := some "medium", notes := none }],
                dismissedTodos := ["old"] }) 0 none true = some u ∧
      u.todos =
        (normalizeExtractedInfo
          (some { events := [], people := [], locations := [],
                  todos := [{ title := some "买牛奶", dueDate := some "未知",
                              priority := some "medium", notes := none }],
                  dismissedTodos := ["old"] })).todos.eraseIdx 0 ∧
      (∀ s, s ∈ u.dismissedTodos ↔
        s ∈ (normalizeExtractedInfo
          (some { events := [], people := [], locations := [],
                  todos := [{ title := some "买牛奶", dueDate := some "未知",
                              priority := some "medium", notes := none }],
                  dismissedTodos := ["old"] })).dismissedTodos ∨
        s = buildTodoKey (optTrim (some "买牛奶"))
              (normalizeTodoDueDate (some "未知"))
              (normalizeTodoPriority (some "medium")) ∨
        s = buildTodoTitleKey (optTrim (some "买牛奶"))) :=
  (handleAddTodo_atomic
    (some { events := [], people := [], locations := [],
            todos := [{ title := some "买牛奶", dueDate := some "未知",
                        priority := some "medium", notes := none }],
            dismissedTodos := ["old"] }) 0 none
    ({ id := "c1",
       extractedInfo :=
         { events := [], people := [], locations := [], todos := [],
           dismissedTodos := [] } } : Conversation)
    { title := some "买牛奶", dueDate := some "未知", priority := some "medium",
      notes := none }).2 (by decide) (by decide)

theorem mem_setAdd_left (l : List String) (a k : String) (h : k ∈ l) :
    k ∈ setAdd l a :=
  (mem_setAdd l a k).mpr (Or.inl h)

theorem mem_ite_setAdd (c : Prop) [Decidable c] (l : List String) (a k : String)
    (h : k ∈ l) : k ∈ (if c then l else setAdd l a) := by
  split
  · exact h
  · exact mem_setAdd_left _ _ _ h

/-- C7: every write of `ExtractedInfo` (dismiss, promote, merge) produces a
dismissal set containing all previously recorded keys, and every merge
output honors all previous dismissals on both full key and title key. -/
theorem dismissedTodos_monotone :
    (∀ (info : Option ExtractedInfo) (index : Nat) (u : ExtractedInfo),
      handleDeleteTodo info index = some u →
      ∀ k ∈ (normalizeExtractedInfo info).dismissedTodos, k ∈ u.dismissedTodos) ∧
    (∀ (info : Option ExtractedInfo) (index : Nat) (draft : Option TodoEditDraft)
        (created : Bool) (u : ExtractedInfo),
      handleAddTodo info index draft created = some u →
      ∀ k ∈ (normalizeExtractedInfo info).dismissedTodos, k ∈ u.dismissedTodos) ∧
    (∀ (det : ExtractedInfo) (conv : Conversation)
        (taskKeys taskTitleKeys : List String) (u : ExtractedInfo),
      mergeDetectedTodos (some det) (some conv) taskKeys taskTitleKeys = some u →
      (∀ k ∈ conv.extractedInfo.dismissedTodos, k ∈ u.dismissedTodos) ∧
      (∀ t ∈ u.todos, ∀ k ∈ conv.extractedInfo.dismissedTodos,
        buildTodoKeyFromTodo t ≠ k ∧
        buildTodoTitleKeyFromTodo t ≠ extractTitleKeyFromTodoKey k)) := by
  refine ⟨?_, ?_, ?_⟩
  · intro info index u hu k hk
    cases hm : (normalizeExtractedInfo info).todos[index]? with
    | none => simp [handleDeleteTodo, hm] at hu
    | some t =>
        simp only [handleDeleteTodo, hm, Option.some.injEq] at hu
        subst hu
        exact mem_ite_setAdd _ _ _ _
          (mem_ite_setAdd _ _ _ _ ((mem_jsSetFrom _ _).mpr hk))
  · intro info index draft created u hu k hk
    cases hm : (normalizeExtractedInfo info).todos[index]? with
    | none => simp [handleAddTodo, hm] at hu
    | some t =>
        simp only [handleAddTodo, hm] at hu
        split at hu
        · cases hu
        · split at hu
          · simp only [Option.some.injEq] at hu
            subst hu
            exact mem_ite_setAdd _ _ _ _
              (mem_ite_setAdd _ _ _ _ ((mem_jsSetFrom _ _).mpr hk))
          · cases hu
  · intro det conv taskKeys taskTitleKeys u hu
    simp only [mergeDetectedTodos] at hu
    split at hu
    · cases hu
    · split at hu
      · cases hu
      · simp only [Option.some.injEq] at hu
        subst hu
        constructor
        · intro k hk
          exact (mem_jsSetFrom _ _).mpr (List.mem_append.mpr (Or.inl hk))
        · intro t ht k hk
          obtain ⟨g1, g2, g3, g4, g5, g6⟩ :=
            (mergeCore_inv
              (jsSetFrom
                ((normalizeExtractedInfo (some conv.extractedInfo)).dismissedTodos ++
                  det.dismissedTodos)) taskKeys taskTitleKeys
              (normalizeExtractedInfo (some conv.extractedInfo)).todos
              det.todos).2.2.2.2 t ht
          constructor
          · intro he
            apply g3
            rw [he]
            exact (mem_jsSetFrom _ _).mpr (List.mem_append.mpr (Or.inl hk))
          · intro he
            apply g4
            rw [he]
            exact (mem_jsSetFrom _ _).mpr
              (List.mem_map.mpr
                ⟨k, (mem_jsSetFrom _ _).mpr (List.mem_append.mpr (Or.inl hk)), rfl⟩)

/-- C7 witness: dismissing one suggestion keeps the previously dismissed
key. -/
theorem dismissedTodos_monotone_witness :
    "oldkey" ∈
      ({ events := [], people := [], locations := [], todos := [],
         dismissedTodos := ["oldkey", "买牛奶||medium", "买牛奶"] } :
        ExtractedInfo).dismissedTodos :=
  dismissedTodos_monotone.1
    (some { events := [], people := [], locations := [],
            todos := [{ title := some "买牛奶", dueDate := some "未知",
                        priority := some "medium", notes := none }],
            dismissedTodos := ["oldkey"] }) 0
    { events := [], people := [], locations := [], todos := [],
      dismissedTodos := ["oldkey", "买牛奶||medium", "买牛奶"] }
    (by decide) "oldkey" (by decide)

/-- C10: when a merge adds no incoming suggestion and prunes no pending
entry (the rebuilt list has the current length), `mergeDetectedTodos`
performs no update at all: nothing is written, so the conversation — in
particular any dismissal keys carried in the detected `dismissedTodos` —
is left bit-for-bit unchanged. -/
theorem mergeDetectedTodos_frame
    (det : ExtractedInfo) (conv : Conversation)
    (taskKeys taskTitleKeys : List String)
    (h0 : (mergeCore
        (jsSetFrom
          ((normalizeExtractedInfo (some conv.extractedInfo)).dismissedTodos ++
            det.dismissedTodos)) taskKeys taskTitleKeys
        (normalizeExtractedInfo (some conv.extractedInfo)).todos
        det.todos).added = 0)
    (h1 : (mergeCore
        (jsSetFrom
          ((normalizeExtractedInfo (some conv.extractedInfo)).dismissedTodos ++
            det.dismissedTodos)) taskKeys taskTitleKeys
        (normalizeExtractedInfo (some conv.extractedInfo)).todos
        det.todos).nextTodos.length =
      (normalizeExtractedInfo (some conv.extractedInfo)).todos.length) :
    mergeDetectedTodos (some det) (some conv) taskKeys taskTitleKeys = none ∧
    applyUpdate conv
      (mergeDetectedTodos (some det) (some conv) taskKeys taskTitleKeys) =
      conv := by
  have hnone :
      mergeDetectedTodos (some det) (some conv) taskKeys taskTitleKeys = none := by
    simp only [mergeDetectedTodos]
    split
    · rfl
    · rw [if_pos ⟨h0, h1⟩]
  exact ⟨hnone, by rw [hnone]; rfl⟩

/-- C10 witness: a detection pass that re-reports the only pending todo and
carries a new dismissal key "x" writes nothing. -/
theorem mergeDetectedTodos_frame_witness :
    mergeDetectedTodos
      (some { events := [], people := [], locations := [],
              todos := [{ title := some "买牛奶", dueDate := some "未知",
                          priority := some "medium", notes := none }],
              dismissedTodos := ["x"] })
      (some { id := "c1",
              extractedInfo :=
                { events := [], people := [], locations := [],
                  todos := [{ title := some "买牛奶", dueDate := some "未知",
                              priority := some "medium", notes := none }],
                  dismissedTodos := [] } }) [] [] = none ∧
    applyUpdate
      { id := "c1",
        extractedInfo :=
          { events := [], people := [], locations := [],
            todos := [{ title := some "买牛奶", dueDate := some "未知",
                        priority := some "medium", notes := none }],
            dismissedTodos := [] } }
      (mergeDetectedTodos
        (some { events := [], people := [], locations := [],
                todos := [{ title := some "买牛奶", dueDate := some "未知",
                            priority := some "medium", notes := none }],
                dismissedTodos := ["x"] })
        (some { id := "c1",
                extractedInfo :=
                  { events := [], people := [], locations := [],
                    todos := [{ title := some "买牛奶", dueDate := some "未知",
                                priority := some "medium", notes := none }],
                    dismissedTodos := [] } }) [] []) =
      { id := "c1",
        extractedInfo :=
          { events := [], people := [], locations := [],
            todos := [{ title := some "买牛奶", dueDate := some "未知",
                        priority := some "medium", notes := none }],
            dismissedTodos := [] } } :=
  mergeDetectedTodos_frame
    { events := [], people := [], locations := [],
      todos := [{ title := some "买牛奶", dueDate := some "未知",
                  priority := some "medium", notes := none }],
      dismissedTodos := ["x"] }
    { id := "c1",
      extractedInfo :=
        { events := [], people := [], locations := [],
          todos := [{ title := some "买牛奶", dueDate := some "未知",
                      priority := some "medium", notes := none }],
          dismissedTodos := [] } }
    [] [] (by decide) (by decide)

end SmartDiary
